import Mathlib

/-!
Verification development for the serial cabinet protocol engine
(`src/utils/serialPort.js` and `src/services/cabinetService.js`).

The JavaScript is shallowly embedded: byte buffers become `List Nat`,
JavaScript objects keyed by numbers become association lists in key
insertion order, and the asynchronous parts (the serial `data` events,
the status-request promise and its `setTimeout` timer) become explicit
state transitions on a `ServiceState` record.  All bitwise arithmetic is
carried out on `Nat`; this coincides with JavaScript's int32 bitwise
semantics on the non-negative values below 2^31 that occur here.
-/

/-- One round of the CRC8 loop body from `calculateCRC8`:
`if (crc & 0x01) crc = (crc >> 1) ^ 0x8C else crc >>= 1; crc &= 0xFF`. -/
def crc8Round (crc : Nat) : Nat :=
  (if crc % 2 = 1 then Nat.xor (crc / 2) 0x8C else crc / 2) % 256

/-- `i` iterations of the inner `for` loop of `calculateCRC8`. -/
def crc8Rounds : Nat → Nat → Nat
  | 0, crc => crc
  | i + 1, crc => crc8Rounds i (crc8Round crc)

/-- Processing of one input byte in `calculateCRC8`: `crc ^= byte`
followed by eight shift rounds. -/
def crc8Byte (crc byte : Nat) : Nat :=
  crc8Rounds 8 (Nat.xor crc byte)

/-- `calculateCRC8` from `src/utils/serialPort.js`: CRC-8 with polynomial
0x8C, processed LSB-first, initial value 0. -/
def calculateCRC8 (buffer : List Nat) : Nat :=
  buffer.foldl crc8Byte 0

/-- `Buffer.from(array)` keeps only the low 8 bits of every element. -/
def bufferFrom (l : List Nat) : List Nat :=
  l.map (fun b => b % 256)

/-- `buildSerialFrame(dataBytes, boardAddress, instruction)` from
`src/utils/serialPort.js`: assembles
`[0xAA, 0x55, dataLength, boardAddress, instruction, ...dataBytes]`,
appends the CRC8 of that prefix, and materialises the result with
`Buffer.from` (which truncates every element mod 256).  The source gives
`boardAddress` default `0x00` and `instruction` default `0x51`. -/
def buildSerialFrame (dataBytes : List Nat) (boardAddress : Nat) (instruction : Nat) : List Nat :=
  let dataLength := 1 + 1 + dataBytes.length
  let frameWithoutCRC := [0xAA, 0x55, dataLength, boardAddress, instruction] ++ dataBytes
  let crc := calculateCRC8 frameWithoutCRC
  bufferFrom (frameWithoutCRC ++ [crc])

/-- `validateFrameCRC(frame)` from `src/services/cabinetService.js`:
frames shorter than 4 bytes are rejected, otherwise the CRC8 of all
bytes but the last is compared with the last byte. -/
def validateFrameCRC (frame : List Nat) : Bool :=
  if frame.length < 4 then false
  else
    let frameWithoutCRC := frame.take (frame.length - 1)
    let expectedCRC := frame.getD (frame.length - 1) 0
    calculateCRC8 frameWithoutCRC == expectedCRC

/-- One per-cabinet record, as stored in `this.cabinetStatus` and inside
parsed status responses.  Entries written by `openCabinets` carry only
`id`, `status`, `timestamp`; the extra bit-bookkeeping fields written by
`parseStatusResponse` are modelled as `Option`s.  Timestamps
(`new Date().toISOString()`) are modelled as an abstract clock value. -/
structure CabinetInfo where
  id : Nat
  status : String
  statusByte : Option Nat
  statusBit : Option Nat
  rawBit : Option Nat
  timestamp : Nat
deriving DecidableEq, Repr

/-- Result object of `parseStatusResponse`.  The `cabinets` object is
modelled as an association list in key insertion order. -/
structure ParsedStatus where
  timestamp : Nat
  statusBytes : List Nat
  cabinets : List (Nat × CabinetInfo)
  totalCabinets : Nat
deriving DecidableEq, Repr

/-- The mutable fields of the `CabinetService` singleton.  The pending
status-request promise created by `requestStatus` and its `setTimeout`
timer are modelled by `statusRequestPending` (promise outstanding and
unresolved) and `statusRequestTimeout` (the stored timer handle). -/
structure ServiceState where
  portPath : String
  baudRate : Nat
  isConnected : Bool
  cabinetStatus : List (Nat × CabinetInfo)
  responseBuffer : List Nat
  lastStatusUpdate : Option Nat
  statusRequestTimeout : Option Nat
  statusRequestPending : Bool
deriving DecidableEq, Repr

/-- State right after the constructor runs with no environment
overrides (`SERIAL_PORT` and `BAUD_RATE` unset). -/
def initialState : ServiceState :=
  ⟨"COM1", 9600, false, [], [], none, none, false⟩

/-- JavaScript object property assignment `m[k] = v` on a numerically
keyed object modelled as an association list: an existing key keeps its
position, a new key is appended. -/
def objSet (m : List (Nat × CabinetInfo)) (k : Nat) (v : CabinetInfo) : List (Nat × CabinetInfo) :=
  if m.any (fun p => p.1 == k) then m.map (fun p => if p.1 == k then (k, v) else p)
  else m ++ [(k, v)]

/-- The status-byte collection loop of `parseStatusResponse`:
`for (let i = 5; i < 5 + 6 && i < frame.length - 1; i++)`.
The index starts at 5 and the bound `i < 11` allows at most 6
iterations, so fuel 6 is exact. -/
def statusBytesGo (frame : List Nat) : Nat → Nat → List Nat
  | 0, _ => []
  | fuel + 1, i =>
    if i < 5 + 6 ∧ i < frame.length - 1 then frame.getD i 0 :: statusBytesGo frame fuel (i + 1)
    else []

/-- The `statusBytes` array built by `parseStatusResponse`. -/
def statusBytesLoop (frame : List Nat) : List Nat :=
  statusBytesGo frame 6 5

/-- The nested bit loop of `parseStatusResponse`: for each status byte
(outer index) and each of its 8 bits (inner index, least significant
first), an entry keyed by `cabinetId = byteIndex * 8 + bitIndex`. -/
def cabinetsOfBytes (now : Nat) (statusBytes : List Nat) : List (Nat × CabinetInfo) :=
  (List.range statusBytes.length).flatMap (fun byteIndex =>
    (List.range 8).map (fun bitIndex =>
      let byte := statusBytes.getD byteIndex 0
      let bitValue := (byte >>> bitIndex) &&& 1
      let cabinetId := byteIndex * 8 + bitIndex
      (cabinetId,
        (⟨cabinetId, if bitValue = 1 then "available" else "unavailable",
          some byteIndex, some bitIndex, some bitValue, now⟩ : CabinetInfo))))

/-- `parseStatusResponse(frame)` from `src/services/cabinetService.js`:
`null` when `frame.length < 12` or the declared data length `frame[2]`
is below 8; otherwise the bit-mapped decode of status bytes 5..10. -/
def parseStatusResponse (now : Nat) (frame : List Nat) : Option ParsedStatus :=
  if frame.length < 12 then none
  else if frame.getD 2 0 < 8 then none
  else
    let statusBytes := statusBytesLoop frame
    some ⟨now, statusBytes, cabinetsOfBytes now statusBytes, statusBytes.length * 8⟩

/-- `extractFrame(buffer)` from `src/services/cabinetService.js`:
`null` for buffers under 6 bytes, for a non-matching header (the code
returns without skipping anything), and for incomplete frames;
otherwise the leading `3 + buffer[2] + 1` bytes together with the rest
of the buffer and the CRC verdict. -/
def extractFrame (buffer : List Nat) : Option (List Nat × List Nat × Bool) :=
  if buffer.length < 6 then none
  else if ¬(buffer.getD 0 0 = 0xAA ∧ buffer.getD 1 0 = 0x55) then none
  else
    let dataLength := buffer.getD 2 0
    let frameLength := 3 + dataLength + 1
    if buffer.length < frameLength then none
    else some (buffer.take frameLength, buffer.drop frameLength, validateFrameCRC (buffer.take frameLength))

/-- `updateCabinetStatus(parsedStatus)`: overwrite-by-id merge of every
decoded entry into `this.cabinetStatus`. -/
def updateCabinetStatus (st : ServiceState) (parsedStatus : ParsedStatus) : ServiceState :=
  { st with
    cabinetStatus := parsedStatus.cabinets.foldl (fun m kv => objSet m kv.1 kv.2) st.cabinetStatus }

/-- The per-frame dispatch inside the `parseResponse` loop: frames of
length at least 5 whose byte 4 is `0x51` are decoded as status
responses; a successful decode is merged and `lastStatusUpdate` is
refreshed.  Nothing else touches engine state. -/
def applyFrame (now : Nat) (st : ServiceState) (frame : List Nat) : ServiceState :=
  if 5 ≤ frame.length then
    if frame.getD 4 0 = 0x51 then
      match parseStatusResponse now frame with
      | some parsedStatus => { updateCabinetStatus st parsedStatus with lastStatusUpdate := some now }
      | none => st
    else st
  else st

/-- The `while (currentBuffer.length > 0)` loop of `parseResponse`,
with explicit fuel.  Every extracted frame is at least 4 bytes, so from
an `n`-byte buffer the loop iterates at most `n` times; `parseResponse`
below supplies fuel `n`, which therefore never runs out on a non-empty
buffer.  Emitted `(frame, valid)` pairs record every frame the loop
consumed, in order. -/
def parseLoopFuel (now : Nat) : Nat → ServiceState → List Nat → ServiceState × List (List Nat × Bool)
  | 0, st, cur => ({ st with responseBuffer := cur }, [])
  | fuel + 1, st, cur =>
    if cur.length = 0 then ({ st with responseBuffer := cur }, [])
    else
      match extractFrame cur with
      | none => ({ st with responseBuffer := cur }, [])
      | some (frame, remaining, valid) =>
        if valid then
          let r := parseLoopFuel now fuel (applyFrame now st frame) remaining
          (r.1, (frame, true) :: r.2)
        else
          let r := parseLoopFuel now fuel st remaining
          (r.1, (frame, false) :: r.2)

/-- `parseResponse(buffer)` from `src/services/cabinetService.js`: one
full reassembly pass over `buffer`, returning the updated service state
(including the final `responseBuffer`) and the consumed frames. -/
def parseResponse (now : Nat) (st : ServiceState) (buffer : List Nat) : ServiceState × List (List Nat × Bool) :=
  parseLoopFuel now buffer.length st buffer

/-- The serial `data` event handler installed by `connect`:
`this.responseBuffer = Buffer.concat([this.responseBuffer, data]);
this.parseResponse(this.responseBuffer)`. -/
def onBytesReceived (now : Nat) (st : ServiceState) (chunk : List Nat) : ServiceState × List (List Nat × Bool) :=
  parseResponse now { st with responseBuffer := st.responseBuffer ++ chunk } (st.responseBuffer ++ chunk)

/-- A sequence of serial `data` events, collecting all consumed frames. -/
def feedChunks (now : Nat) (st : ServiceState) : List (List Nat) → ServiceState × List (List Nat × Bool)
  | [] => (st, [])
  | c :: rest =>
    let p := onBytesReceived now st c
    let q := feedChunks now p.1 rest
    (q.1, p.2 ++ q.2)

/-- A JavaScript value appearing in an `openCabinets` id array, as seen
by the engine's checks: either an integer (`Number.isInteger` true) or
anything else, carried with its display text for the error message. -/
inductive JSNum where
  | int (n : Int)
  | other (shown : String)
deriving DecidableEq, Repr

/-- The per-id validation of `openCabinets`:
`Number.isInteger(id) && id >= 0 && id <= 0xFF`. -/
def jsNumOk : JSNum → Bool
  | .int n => decide (0 ≤ n) && decide (n ≤ 255)
  | .other _ => false

/-- Display text used in the `Invalid cabinet ID` message. -/
def jsNumStr : JSNum → String
  | .int n => toString n
  | .other s => s

/-- The byte value a validated id contributes to its frame. -/
def jsNumToNat : JSNum → Nat
  | .int n => n.toNat
  | .other _ => 0

/-- An element of `results.opened`. -/
structure OpenEntry where
  id : Nat
  status : String
  timestamp : Nat
deriving DecidableEq, Repr

/-- An element of `results.failed`. -/
structure FailEntry where
  id : Nat
  error : String
deriving DecidableEq, Repr

/-- `sendFrame(frame)`: rejects when the port is not connected (the
source checks `!this.isConnected || !this.port`; a port object is
present exactly when connected), otherwise hands the frame to
`port.write`, whose outcome the transport decides (`writeErr`).  The
second component lists the frames passed to `port.write`. -/
def sendFrame (writeErr : Option String) (st : ServiceState) (frame : List Nat) :
    Except String Unit × List (List Nat) :=
  if st.isConnected = false then (.error "Serial port not connected", [])
  else
    match writeErr with
    | some e => (.error e, [frame])
    | none => (.ok (), [frame])

/-- The per-id loop of `openCabinets`: build the single-id frame, send
it, record success in the status map and `opened`, or catch the send
failure into `failed` and continue.  `writeErr k` is the transport
outcome of the `k`-th write attempt; the 100 ms settle delay has no
observable state effect.  Returns the final state, the frames passed to
`port.write`, `opened` and `failed`. -/
def openLoop (now : Nat) (writeErr : Nat → Option String) :
    Nat → ServiceState → List JSNum → ServiceState × List (List Nat) × List OpenEntry × List FailEntry
  | _, st, [] => (st, [], [], [])
  | k, st, v :: rest =>
    let n := jsNumToNat v
    let frame := buildSerialFrame [n] 0 0x51
    match sendFrame (writeErr k) st frame with
    | (.ok _, ws) =>
      let st1 := { st with cabinetStatus := objSet st.cabinetStatus n ⟨n, "opened", none, none, none, now⟩ }
      let r := openLoop now writeErr (k + 1) st1 rest
      (r.1, ws ++ r.2.1, ⟨n, "opened", now⟩ :: r.2.2.1, r.2.2.2)
    | (.error e, ws) =>
      let r := openLoop now writeErr (k + 1) st rest
      (r.1, ws ++ r.2.1, r.2.2.1, ⟨n, e⟩ :: r.2.2.2)

/-- `openCabinets(cabinetIds)` from `src/services/cabinetService.js`.
The argument is `none` when the caller did not pass an array.  The
structural checks (`Array.isArray`, non-empty, every id an integer in
0..255) throw before any frame is built or sent; afterwards the loop
runs to completion whatever the per-id transport outcomes.  Returns the
thrown error or `{opened, failed}`, the final state, and every frame
passed to `port.write`. -/
def openCabinets (now : Nat) (writeErr : Nat → Option String) (input : Option (List JSNum))
    (st : ServiceState) :
    Except String (List OpenEntry × List FailEntry) × ServiceState × List (List Nat) :=
  match input with
  | none => (.error "Cabinet IDs must be a non-empty array", st, [])
  | some ids =>
    if ids.isEmpty then (.error "Cabinet IDs must be a non-empty array", st, [])
    else
      match ids.find? (fun v => !jsNumOk v) with
      | some bad =>
        (.error ("Invalid cabinet ID: " ++ jsNumStr bad ++ ". Must be between 0 and 255"), st, [])
      | none =>
        let r := openLoop now writeErr 0 st ids
        (.ok (r.2.2.1, r.2.2.2), r.1, r.2.1)

/-- The structural precondition `openCabinets` rejects: no array, an
empty array, or some element failing the integer-range check. -/
def structuralBad : Option (List JSNum) → Bool
  | none => true
  | some ids => ids.isEmpty || ids.any (fun v => !jsNumOk v)

/-- The verdict `sendFrame` reaches for the `k`-th write attempt when
the connection flag is `conn`: disconnection trumps the transport. -/
def sendOutcome (conn : Bool) (writeErr : Nat → Option String) (k : Nat) : Option String :=
  if conn then writeErr k else some "Serial port not connected"

/-- `requestStatus()` from `src/services/cabinetService.js`: throws
unwrapped when not connected; otherwise sends the `0x50` status-request
frame and, on a successful write, creates the pending promise and arms
the 2-second timer, storing its handle.  A send failure is re-thrown
wrapped.  Nothing here subscribes the promise to inbound frames: it can
only be resolved by the timer callback. -/
def requestStatus (timerId : Nat) (writeErr : Option String) (st : ServiceState) :
    Except String ServiceState × List (List Nat) :=
  if st.isConnected = false then (.error "Serial port not connected", [])
  else
    match sendFrame writeErr st (buildSerialFrame [] 0 0x50) with
    | (.ok _, ws) =>
      (.ok { st with statusRequestTimeout := some timerId, statusRequestPending := true }, ws)
    | (.error e, ws) => (.error ("Failed to request status: " ++ e), ws)

/-- The `setTimeout` callback armed by `requestStatus`: logs a warning
and resolves the pending promise.  It does not null out
`this.statusRequestTimeout`. -/
def statusTimeoutFire (st : ServiceState) : ServiceState :=
  { st with statusRequestPending := false }

/-- `disconnect()`: clears any pending status timer and closes the
port. -/
def disconnect (st : ServiceState) : ServiceState :=
  { st with statusRequestTimeout := none, isConnected := false }

/-- The object returned by `getCabinetStatus`. -/
structure StatusResult where
  connected : Bool
  portPath : String
  baudRate : Nat
  lastUpdate : Option Nat
  cabinets : List CabinetInfo
deriving DecidableEq, Repr

/-- The return object of `getCabinetStatus` built from a state:
`Object.values(this.cabinetStatus)` in key insertion order. -/
def snapshot (st : ServiceState) : StatusResult :=
  ⟨st.isConnected, st.portPath, st.baudRate, st.lastStatusUpdate, st.cabinetStatus.map (fun p => p.2)⟩

/-- `getCabinetStatus(requestFresh)` from
`src/services/cabinetService.js`.  `requestFresh && this.isConnected`
gates the hardware request; a `requestStatus` rejection is caught and
the cached snapshot is returned.  While a successful request is being
awaited (until its timer fires, about 2 s), further events may run;
`awaitEvents` is the state transition those interleaved events perform
before the snapshot is taken. -/
def getCabinetStatus (timerId : Nat) (writeErr : Option String)
    (awaitEvents : ServiceState → ServiceState) (requestFresh : Bool) (st : ServiceState) :
    ServiceState × List (List Nat) × StatusResult :=
  if requestFresh && st.isConnected then
    match requestStatus timerId writeErr st with
    | (.ok st1, ws) =>
      let st2 := awaitEvents st1
      (st2, ws, snapshot st2)
    | (.error _, ws) => (st, ws, snapshot st)
  else (st, [], snapshot st)

/-- The zero-payload frame `buildSerialFrame([], 0x00, 0x51)`:
`[0xAA, 0x55, 0x02, 0x00, 0x51, 0x1D]`. -/
def openFrame : List Nat :=
  buildSerialFrame [] 0 0x51

/-- `openFrame` with its trailing checksum byte tampered (29 → 30). -/
def tamperedFrame : List Nat :=
  [0xAA, 0x55, 2, 0, 0x51, 30]

/-- A status-response frame whose six status bytes are all zero:
`[0xAA, 0x55, 0x08, 0x00, 0x51, 0, 0, 0, 0, 0, 0, 0x1D]`. -/
def statusFrameZero : List Nat :=
  buildSerialFrame (List.replicate 6 0) 0 0x51

/-- A placeholder entry for positional access into decoded cabinet
maps. -/
def dummyEntry : Nat × CabinetInfo :=
  (0, ⟨0, "", none, none, none, 0⟩)

/-- A connected state with a status request in flight: the promise is
pending and the timer handle 7 is stored. -/
def stC8 : ServiceState :=
  { initialState with isConnected := true, statusRequestTimeout := some 7, statusRequestPending := true }

set_option maxRecDepth 8000

theorem extractFrame_none_short {buf : List Nat} (h : buf.length < 6) :
    extractFrame buf = none := by
  simp [extractFrame, h]

theorem extractFrame_none_header {buf : List Nat}
    (h : ¬(buf.getD 0 0 = 0xAA ∧ buf.getD 1 0 = 0x55)) :
    extractFrame buf = none := by
  unfold extractFrame
  by_cases h6 : buf.length < 6
  · rw [if_pos h6]
  · rw [if_neg h6, if_pos h]

theorem parseLoopFuel_nil (now : Nat) (f : Nat) (st : ServiceState) :
    parseLoopFuel now f st [] = ({ st with responseBuffer := [] }, []) := by
  cases f <;> simp [parseLoopFuel]

theorem parseResponse_of_extract_none {buf : List Nat} (now : Nat) (st : ServiceState)
    (h : extractFrame buf = none) :
    parseResponse now st buf = ({ st with responseBuffer := buf }, []) := by
  unfold parseResponse
  cases hL : buf.length with
  | zero =>
    rw [List.length_eq_zero] at hL
    subst hL
    exact parseLoopFuel_nil now 0 st
  | succ n =>
    simp [parseLoopFuel, hL, h]

theorem extractFrame_some_inv {buf frame remaining : List Nat} {valid : Bool}
    (h : extractFrame buf = some (frame, remaining, valid)) :
    6 ≤ buf.length ∧ buf.getD 0 0 = 0xAA ∧ buf.getD 1 0 = 0x55 ∧
    3 + buf.getD 2 0 + 1 ≤ buf.length ∧
    frame = buf.take (3 + buf.getD 2 0 + 1) ∧
    remaining = buf.drop (3 + buf.getD 2 0 + 1) ∧
    valid = validateFrameCRC frame := by
  unfold extractFrame at h
  by_cases h6 : buf.length < 6
  · rw [if_pos h6] at h
    exact absurd h (by simp)
  · rw [if_neg h6] at h
    by_cases hh : buf.getD 0 0 = 0xAA ∧ buf.getD 1 0 = 0x55
    · rw [if_neg (not_not_intro hh)] at h
      by_cases hfl : buf.length < 3 + buf.getD 2 0 + 1
      · rw [if_pos hfl] at h
        exact absurd h (by simp)
      · rw [if_neg hfl] at h
        simp only [Option.some.injEq, Prod.mk.injEq] at h
        obtain ⟨hf, hr, hv⟩ := h
        exact ⟨by omega, hh.1, hh.2, by omega, hf.symm, hr.symm, by rw [← hv, hf]⟩
    · rw [if_pos hh] at h
      exact absurd h (by simp)

theorem extractFrame_remaining_lt {buf frame remaining : List Nat} {valid : Bool}
    (h : extractFrame buf = some (frame, remaining, valid)) : remaining.length < buf.length := by
  obtain ⟨h6, -, -, hfl, -, hr, -⟩ := extractFrame_some_inv h
  subst hr
  simp only [List.length_drop]
  omega

theorem parseLoopFuel_congr (now : Nat) : ∀ (f g : Nat) (st : ServiceState) (cur : List Nat),
    cur.length ≤ f → cur.length ≤ g → parseLoopFuel now f st cur = parseLoopFuel now g st cur := by
  intro f
  induction f with
  | zero =>
    intro g st cur hf hg
    have hc : cur = [] := List.length_eq_zero.mp (Nat.le_zero.mp hf)
    subst hc
    rw [parseLoopFuel_nil, parseLoopFuel_nil]
  | succ f ih =>
    intro g st cur hf hg
    cases g with
    | zero =>
      have hc : cur = [] := List.length_eq_zero.mp (Nat.le_zero.mp hg)
      subst hc
      rw [parseLoopFuel_nil, parseLoopFuel_nil]
    | succ g =>
      by_cases hc : cur.length = 0
      · simp [parseLoopFuel, hc]
      · cases hE : extractFrame cur with
        | none => simp [parseLoopFuel, hc, hE]
        | some t =>
          obtain ⟨frame, remaining, valid⟩ := t
          have hrem := extractFrame_remaining_lt hE
          have h1 : remaining.length ≤ f := by omega
          have h2 : remaining.length ≤ g := by omega
          simp only [parseLoopFuel, hc, hE]
          cases valid <;> simp [ih _ _ _ h1 h2]

/-- C9: a reassembly pass over a buffer of at least 6 bytes whose first
two bytes are not the header sentinel `0xAA 0x55` emits no frames,
updates no engine state, and leaves the buffer byte-for-byte unchanged:
no leading garbage byte is ever discarded. -/
theorem nonHeaderStall (now : Nat) (st : ServiceState) (buf : List Nat)
    (h6 : 6 ≤ buf.length) (hh : ¬(buf.getD 0 0 = 0xAA ∧ buf.getD 1 0 = 0x55)) :
    parseResponse now st buf = ({ st with responseBuffer := buf }, []) := by
  have h6' : 6 ≤ buf.length := h6
  exact parseResponse_of_extract_none now st (extractFrame_none_header hh)

theorem nonHeaderStall_witness :
    parseResponse 0 initialState (List.replicate 6 0) =
      ({ initialState with responseBuffer := List.replicate 6 0 }, []) :=
  nonHeaderStall 0 initialState (List.replicate 6 0) (by decide) (by decide)

theorem extractFrame_append {F : List Nat} (rest : List Nat)
    (h0 : F.getD 0 0 = 0xAA) (h1 : F.getD 1 0 = 0x55)
    (hlen : F.length = F.getD 2 0 + 4) (h6 : 6 ≤ F.length) :
    extractFrame (F ++ rest) = some (F, rest, validateFrameCRC F) := by
  have hL : (F ++ rest).length = F.length + rest.length := List.length_append F rest
  have hg0 : (F ++ rest).getD 0 0 = 0xAA := by
    rw [List.getD_append _ _ _ _ (by omega)]
    exact h0
  have hg1 : (F ++ rest).getD 1 0 = 0x55 := by
    rw [List.getD_append _ _ _ _ (by omega)]
    exact h1
  have hg2 : (F ++ rest).getD 2 0 = F.getD 2 0 := by
    rw [List.getD_append _ _ _ _ (by omega)]
  unfold extractFrame
  rw [if_neg (by omega : ¬(F ++ rest).length < 6)]
  rw [if_neg (not_not_intro ⟨hg0, hg1⟩)]
  rw [if_neg (by rw [hg2]; omega : ¬(F ++ rest).length < 3 + (F ++ rest).getD 2 0 + 1)]
  have hfl : 3 + (F ++ rest).getD 2 0 + 1 = F.length := by rw [hg2]; omega
  rw [hfl]
  rw [List.take_left, List.drop_left]

/-- C7: an inbound frame whose trailing checksum byte fails validation
is surfaced with `valid = false` and consumed from the buffer, and the
engine state after processing it is exactly the state produced by the
rest of the buffer alone: the tampered frame mutates nothing. -/
theorem invalidChecksumFrame (now : Nat) (st : ServiceState) (rest F : List Nat)
    (h0 : F.getD 0 0 = 0xAA) (h1 : F.getD 1 0 = 0x55)
    (hlen : F.length = F.getD 2 0 + 4) (h6 : 6 ≤ F.length)
    (hbad : validateFrameCRC F = false) :
    parseResponse now st (F ++ rest) =
      ((parseResponse now st rest).1, (F, false) :: (parseResponse now st rest).2) := by
  have hE := extractFrame_append rest h0 h1 hlen h6
  rw [hbad] at hE
  have hL : (F ++ rest).length = F.length + rest.length := List.length_append F rest
  unfold parseResponse
  obtain ⟨k, hk⟩ : ∃ k, (F ++ rest).length = k + 1 := ⟨(F ++ rest).length - 1, by omega⟩
  rw [hk]
  simp only [parseLoopFuel]
  rw [if_neg (by omega : ¬(F ++ rest).length = 0)]
  simp only [hE]
  have hcongr : parseLoopFuel now k st rest = parseLoopFuel now rest.length st rest :=
    parseLoopFuel_congr now k rest.length st rest (by omega) (by omega)
  simp [hcongr]

theorem invalidChecksumFrame_witness :
    parseResponse 0 initialState tamperedFrame =
      ({ initialState with responseBuffer := [] }, [(tamperedFrame, false)]) := by
  have h := invalidChecksumFrame 0 initialState [] tamperedFrame
    (by decide) (by decide) (by decide) (by decide) (by decide)
  rw [List.append_nil] at h
  rw [h]
  rw [parseResponse_of_extract_none 0 initialState (extractFrame_none_short (by decide))]

/-- C2 (code bug): the pending-buffer invariant fails.  On the repo's
own unit-test input `FF FF 03 00 51 A5` (invalid header) the pass
leaves all six garbage bytes buffered — neither empty nor the prefix of
any frame — although the test expects the buffer cleared and the code
comment says "skip first byte and try again".  With a stray `0x00`
before a complete valid frame, the pass retains the garbage byte, the
data preceding the (located but never reached) valid header, and the
stale complete frame itself, and emits nothing. -/
theorem reassemblyInvariant_codeBugEval :
    (parseResponse 0 initialState [0xFF, 0xFF, 0x03, 0x00, 0x51, 0xA5]).1.responseBuffer =
        [0xFF, 0xFF, 0x03, 0x00, 0x51, 0xA5]
    ∧ (parseResponse 0 initialState (0x00 :: openFrame)).1.responseBuffer = 0x00 :: openFrame
    ∧ (parseResponse 0 initialState (0x00 :: openFrame)).2 = []
    ∧ validateFrameCRC openFrame = true := by
  decide

/-- C8 (counterexample): with a status request in flight (pending
promise, timer handle 7 armed) a valid status-response frame is decoded
and merged (`lastStatusUpdate` is refreshed), yet the pending operation
is not resolved and the timer is not cancelled — contradicting the
claim that the operation resolves on response and clears its timer on
normal completion. -/
theorem statusTimeout_counterexample :
    (parseResponse 0 stC8 statusFrameZero).1.lastStatusUpdate = some 0
    ∧ (parseResponse 0 stC8 statusFrameZero).1.statusRequestTimeout = some 7
    ∧ (parseResponse 0 stC8 statusFrameZero).1.statusRequestPending = true
    ∧ (parseResponse 0 stC8 statusFrameZero).2 = [(statusFrameZero, true)] := by
  decide

theorem applyFrame_fields (now : Nat) (st : ServiceState) (frame : List Nat) :
    (applyFrame now st frame).statusRequestTimeout = st.statusRequestTimeout
    ∧ (applyFrame now st frame).statusRequestPending = st.statusRequestPending
    ∧ (applyFrame now st frame).isConnected = st.isConnected
    ∧ (applyFrame now st frame).portPath = st.portPath
    ∧ (applyFrame now st frame).baudRate = st.baudRate := by
  unfold applyFrame updateCabinetStatus
  repeat' split
  all_goals simp

theorem parseLoopFuel_fields (now : Nat) : ∀ (f : Nat) (st : ServiceState) (cur : List Nat),
    (parseLoopFuel now f st cur).1.statusRequestTimeout = st.statusRequestTimeout
    ∧ (parseLoopFuel now f st cur).1.statusRequestPending = st.statusRequestPending
    ∧ (parseLoopFuel now f st cur).1.isConnected = st.isConnected := by
  intro f
  induction f with
  | zero =>
    intro st cur
    simp [parseLoopFuel]
  | succ f ih =>
    intro st cur
    by_cases hc : cur.length = 0
    · simp [parseLoopFuel, hc]
    · cases hE : extractFrame cur with
      | none => simp [parseLoopFuel, hc, hE]
      | some t =>
        obtain ⟨frame, remaining, valid⟩ := t
        obtain ⟨ha1, ha2, ha3, -, -⟩ := applyFrame_fields now st frame
        have hrec1 := ih st remaining
        have hrec2 := ih (applyFrame now st frame) remaining
        cases valid <;>
          simp [parseLoopFuel, hc, hE, hrec1.1, hrec1.2.1, hrec1.2.2,
            hrec2.1, hrec2.2.1, hrec2.2.2, ha1, ha2, ha3]

/-- C8 (amended): the status-request operation resolves only when its
2-second timer fires.  A status response decoded beforehand merges into
the cabinet map but neither resolves the pending operation nor clears
the timer; the timer callback resolves the promise while leaving the
stored handle in place, and only `disconnect` clears the handle. -/
theorem statusTimeout_amended (now : Nat) (st : ServiceState) (buf : List Nat) :
    (parseResponse now st buf).1.statusRequestTimeout = st.statusRequestTimeout
    ∧ (parseResponse now st buf).1.statusRequestPending = st.statusRequestPending
    ∧ (statusTimeoutFire st).statusRequestPending = false
    ∧ (statusTimeoutFire st).statusRequestTimeout = st.statusRequestTimeout
    ∧ (disconnect st).statusRequestTimeout = none := by
  have h := parseLoopFuel_fields now buf.length st buf
  exact ⟨h.1, h.2.1, rfl, rfl, rfl⟩

/-- C10: `getCabinetStatus(true)` while the port is not connected skips
the hardware request entirely — no frame reaches the transport, nothing
throws — and returns the cached snapshot, whose `connected` field is
`false`. -/
theorem offlineGetStatus (timerId : Nat) (writeErr : Option String)
    (awaitEvents : ServiceState → ServiceState) (st : ServiceState)
    (h : st.isConnected = false) :
    getCabinetStatus timerId writeErr awaitEvents true st = (st, [], snapshot st)
    ∧ (snapshot st).connected = false := by
  constructor
  · unfold getCabinetStatus
    rw [h]
    simp
  · simp [snapshot, h]

theorem offlineGetStatus_witness :
    getCabinetStatus 0 none id true initialState = (initialState, [], snapshot initialState)
    ∧ (snapshot initialState).connected = false :=
  offlineGetStatus 0 none id initialState rfl

theorem crc8Round_lt (c : Nat) : crc8Round c < 256 := by
  unfold crc8Round
  exact Nat.mod_lt _ (by omega)

theorem crc8Rounds_lt (i : Nat) (c : Nat) (h : 1 ≤ i) : crc8Rounds i c < 256 := by
  induction i generalizing c with
  | zero => omega
  | succ i ih =>
    cases i with
    | zero => simpa [crc8Rounds] using crc8Round_lt c
    | succ j => exact ih (crc8Round c) (by omega)

theorem crc8Byte_lt (c b : Nat) : crc8Byte c b < 256 :=
  crc8Rounds_lt 8 (Nat.xor c b) (by omega)

theorem foldl_crc8Byte_lt (l : List Nat) : ∀ c, c < 256 → List.foldl crc8Byte c l < 256 := by
  induction l with
  | nil => intro c hc; simpa using hc
  | cons x xs ih => intro c hc; exact ih (crc8Byte c x) (crc8Byte_lt c x)

theorem calculateCRC8_lt (l : List Nat) : calculateCRC8 l < 256 :=
  foldl_crc8Byte_lt l 0 (by omega)

theorem bufferFrom_eq_self {l : List Nat} (h : ∀ x ∈ l, x < 256) : bufferFrom l = l := by
  unfold bufferFrom
  induction l with
  | nil => rfl
  | cons x xs ih =>
    simp only [List.map_cons]
    rw [Nat.mod_eq_of_lt (h x (by simp)), ih (fun y hy => h y (by simp [hy]))]

theorem buildSerialFrame_def (p : List Nat) (a i : Nat) :
    buildSerialFrame p a i =
      bufferFrom (([0xAA, 0x55, 1 + 1 + p.length, a, i] ++ p) ++
        [calculateCRC8 ([0xAA, 0x55, 1 + 1 + p.length, a, i] ++ p)]) := rfl

/-- C1 (amended): for payloads of at most 253 bytes (so that the
declared data length `2 + payload.length` still fits in the length
byte) with every byte, the address and the instruction in 0..255, the
frame built by `buildSerialFrame` passes `validateFrameCRC`. -/
theorem crcRoundTrip_amended (payload : List Nat) (addr instr : Nat)
    (hp : ∀ b ∈ payload, b < 256) (hl : payload.length ≤ 253)
    (ha : addr < 256) (hi : instr < 256) :
    validateFrameCRC (buildSerialFrame payload addr instr) = true := by
  rw [buildSerialFrame_def]
  have hpre : ∀ x ∈ [0xAA, 0x55, 1 + 1 + payload.length, addr, instr] ++ payload, x < 256 := by
    intro x hx
    rcases List.mem_append.mp hx with hx | hx
    · simp only [List.mem_cons, List.not_mem_nil, or_false] at hx
      rcases hx with rfl | rfl | rfl | rfl | rfl <;> omega
    · exact hp x hx
  have hall : ∀ x ∈ ([0xAA, 0x55, 1 + 1 + payload.length, addr, instr] ++ payload) ++
      [calculateCRC8 ([0xAA, 0x55, 1 + 1 + payload.length, addr, instr] ++ payload)], x < 256 := by
    intro x hx
    rcases List.mem_append.mp hx with hx | hx
    · exact hpre x hx
    · simp only [List.mem_singleton] at hx
      subst hx
      exact calculateCRC8_lt _
  rw [bufferFrom_eq_self hall]
  unfold validateFrameCRC
  have hlenL : ([0xAA, 0x55, 1 + 1 + payload.length, addr, instr] ++ payload).length =
      5 + payload.length := by simp; omega
  have hlen : (([0xAA, 0x55, 1 + 1 + payload.length, addr, instr] ++ payload) ++
      [calculateCRC8 ([0xAA, 0x55, 1 + 1 + payload.length, addr, instr] ++ payload)]).length =
      6 + payload.length := by simp; omega
  rw [if_neg (by omega : ¬(([0xAA, 0x55, 1 + 1 + payload.length, addr, instr] ++ payload) ++
      [calculateCRC8 ([0xAA, 0x55, 1 + 1 + payload.length, addr, instr] ++ payload)]).length < 4)]
  rw [hlen]
  have h1 : 6 + payload.length - 1 =
      ([0xAA, 0x55, 1 + 1 + payload.length, addr, instr] ++ payload).length := by
    rw [hlenL]; omega
  rw [h1, List.take_left, List.getD_append_right _ _ _ _ (by omega), Nat.sub_self]
  simp

theorem crcRoundTrip_amended_witness :
    validateFrameCRC (buildSerialFrame [1, 2, 3] 0 0x51) = true :=
  crcRoundTrip_amended [1, 2, 3] 0 0x51 (by decide) (by decide) (by decide) (by decide)

/-- C1 (counterexample): with a 254-byte payload the declared data
length is 256; `Buffer.from` stores it as 0 while the checksum was
computed over the value 256, so the built frame fails validation.  The
claim as stated, quantifying over every payload list of bytes, is
false. -/
theorem crcRoundTrip_counterexample :
    validateFrameCRC (buildSerialFrame (List.replicate 254 0) 0 0x51) = false := by
  have hsplit : ∀ (c m n : Nat),
      List.foldl crc8Byte c (List.replicate (m + n) 0) =
        List.foldl crc8Byte (List.foldl crc8Byte c (List.replicate m 0)) (List.replicate n 0) := by
    intro c m n
    rw [List.replicate_add, List.foldl_append]
  have a0 : List.foldl crc8Byte 0 [0xAA, 0x55, 0x100, 0, 0x51] = 150 := by decide
  have a1 : List.foldl crc8Byte 150 (List.replicate 32 0) = 169 := by decide
  have a2 : List.foldl crc8Byte 169 (List.replicate 32 0) = 108 := by decide
  have a3 : List.foldl crc8Byte 108 (List.replicate 32 0) = 27 := by decide
  have a4 : List.foldl crc8Byte 27 (List.replicate 32 0) = 204 := by decide
  have a5 : List.foldl crc8Byte 204 (List.replicate 32 0) = 51 := by decide
  have a6 : List.foldl crc8Byte 51 (List.replicate 32 0) = 198 := by decide
  have a7 : List.foldl crc8Byte 198 (List.replicate 32 0) = 189 := by decide
  have a8 : List.foldl crc8Byte 189 (List.replicate 30 0) = 150 := by decide
  have hA : calculateCRC8 ([0xAA, 0x55, 0x100, 0, 0x51] ++ List.replicate 254 0) = 150 := by
    unfold calculateCRC8
    rw [List.foldl_append, a0,
      show (254 : Nat) = 32 + 222 from rfl, hsplit, a1,
      show (222 : Nat) = 32 + 190 from rfl, hsplit, a2,
      show (190 : Nat) = 32 + 158 from rfl, hsplit, a3,
      show (158 : Nat) = 32 + 126 from rfl, hsplit, a4,
      show (126 : Nat) = 32 + 94 from rfl, hsplit, a5,
      show (94 : Nat) = 32 + 62 from rfl, hsplit, a6,
      show (62 : Nat) = 32 + 30 from rfl, hsplit, a7, a8]
  have b0 : List.foldl crc8Byte 0 [0xAA, 0x55, 0, 0, 0x51] = 82 := by decide
  have b1 : List.foldl crc8Byte 82 (List.replicate 32 0) = 152 := by decide
  have b2 : List.foldl crc8Byte 152 (List.replicate 32 0) = 38 := by decide
  have b3 : List.foldl crc8Byte 38 (List.replicate 32 0) = 133 := by decide
  have b4 : List.foldl crc8Byte 133 (List.replicate 32 0) = 103 := by decide
  have b5 : List.foldl crc8Byte 103 (List.replicate 32 0) = 211 := by decide
  have b6 : List.foldl crc8Byte 211 (List.replicate 32 0) = 254 := by decide
  have b7 : List.foldl crc8Byte 254 (List.replicate 32 0) = 179 := by decide
  have b8 : List.foldl crc8Byte 179 (List.replicate 30 0) = 82 := by decide
  have hB : calculateCRC8 ([0xAA, 0x55, 0, 0, 0x51] ++ List.replicate 254 0) = 82 := by
    unfold calculateCRC8
    rw [List.foldl_append, b0,
      show (254 : Nat) = 32 + 222 from rfl, hsplit, b1,
      show (222 : Nat) = 32 + 190 from rfl, hsplit, b2,
      show (190 : Nat) = 32 + 158 from rfl, hsplit, b3,
      show (158 : Nat) = 32 + 126 from rfl, hsplit, b4,
      show (126 : Nat) = 32 + 94 from rfl, hsplit, b5,
      show (94 : Nat) = 32 + 62 from rfl, hsplit, b6,
      show (62 : Nat) = 32 + 30 from rfl, hsplit, b7, b8]
  rw [buildSerialFrame_def]
  have hplen : (List.replicate 254 (0 : Nat)).length = 254 := by simp
  have h256 : 1 + 1 + (List.replicate 254 (0 : Nat)).length = 0x100 := by rw [hplen]
  rw [h256, hA]
  have hmap : bufferFrom (([0xAA, 0x55, 0x100, 0, 0x51] ++ List.replicate 254 0) ++ [150]) =
      ([0xAA, 0x55, 0, 0, 0x51] ++ List.replicate 254 0) ++ [150] := by
    unfold bufferFrom
    rw [List.map_append, List.map_append, List.map_replicate]
    rfl
  rw [hmap]
  unfold validateFrameCRC
  have hlenL : ([0xAA, 0x55, 0, 0, 0x51] ++ List.replicate 254 (0 : Nat)).length = 259 := by
    simp
  have hlen : (([0xAA, 0x55, 0, 0, 0x51] ++ List.replicate 254 (0 : Nat)) ++ [150]).length = 260 := by
    simp
  simp only [hlen]
  rw [if_neg (by norm_num : ¬(260 : Nat) < 4)]
  have h259 : (260 : Nat) - 1 = ([0xAA, 0x55, 0, 0, 0x51] ++ List.replicate 254 (0 : Nat)).length := by
    rw [hlenL]
  rw [h259, List.take_left, List.getD_append_right _ _ _ _ (by omega), Nat.sub_self]
  rw [hB]
  rfl

theorem getD_replicate_zero {n : Nat} (hn : 1 ≤ n) :
    (List.replicate n (0 : Nat)).getD 0 0 = 0 := by
  cases n with
  | zero => omega
  | succ m => simp [List.replicate_succ]

theorem feedGarbageThenFrame (now : Nat) (st : ServiceState) (n : Nat) (F : List Nat)
    (hn : 1 ≤ n) (hrb : st.responseBuffer = []) :
    feedChunks now st [List.replicate n 0, F] =
      ({ st with responseBuffer := List.replicate n 0 ++ F }, []) := by
  have hg1 : (List.replicate n (0 : Nat)).getD 0 0 = 0 := getD_replicate_zero hn
  have hg2 : (List.replicate n (0 : Nat) ++ F).getD 0 0 = 0 := by
    rw [List.getD_append _ _ _ _ (by simp; omega)]
    exact hg1
  have hstep1 : parseResponse now { st with responseBuffer := List.replicate n 0 }
      (List.replicate n 0) =
      ({ st with responseBuffer := List.replicate n 0 }, []) :=
    parseResponse_of_extract_none _ _
      (extractFrame_none_header (by rw [hg1]; intro hc; exact absurd hc.1 (by norm_num)))
  have hstep2 : parseResponse now { st with responseBuffer := List.replicate n 0 ++ F }
      (List.replicate n 0 ++ F) =
      ({ st with responseBuffer := List.replicate n 0 ++ F }, []) :=
    parseResponse_of_extract_none _ _
      (extractFrame_none_header (by rw [hg2]; intro hc; exact absurd hc.1 (by norm_num)))
  simp only [feedChunks, onBytesReceived, hrb, List.nil_append]
  rw [hstep1]
  simp only [feedChunks, onBytesReceived]
  rw [hstep2]
  simp

/-- C3 (amended): no buffer cap exists.  A run of `n ≥ 1` non-header
(zero) bytes followed by any further chunk leaves every byte buffered —
nothing is cleared, no overflow signal exists in the code, and no frame
is ever emitted, however large `n` grows; a valid frame delivered after
the garbage is not parsed. -/
theorem bufferCap_amended (now : Nat) (st : ServiceState) (n : Nat) (F : List Nat)
    (hn : 1 ≤ n) (hrb : st.responseBuffer = []) :
    feedChunks now st [List.replicate n 0, F] =
      ({ st with responseBuffer := List.replicate n 0 ++ F }, []) :=
  feedGarbageThenFrame now st n F hn hrb

theorem bufferCap_amended_witness :
    feedChunks 0 initialState [List.replicate 6 0, openFrame] =
      ({ initialState with responseBuffer := List.replicate 6 0 ++ openFrame }, []) :=
  bufferCap_amended 0 initialState 6 openFrame (by omega) rfl


/-- C3 (counterexample): feeding 20 KB of non-header bytes leaves all
20480 bytes buffered, far above the 10 KB cap the specification
posits, and a subsequently delivered valid frame is not emitted — the
engine does not remain responsive.  The claim as stated is false. -/
theorem bufferCap_counterexample :
    10240 < (feedChunks 0 initialState [List.replicate 20480 0, openFrame]).1.responseBuffer.length
    ∧ (feedChunks 0 initialState [List.replicate 20480 0, openFrame]).2 = []
    ∧ validateFrameCRC openFrame = true := by
  have h := feedGarbageThenFrame 0 initialState 20480 openFrame (by omega) rfl
  have hof : openFrame.length = 6 := by decide
  have h1 : (feedChunks 0 initialState [List.replicate 20480 0, openFrame]).1.responseBuffer =
      List.replicate 20480 0 ++ openFrame := by rw [h]
  have h2 : (List.replicate 20480 (0 : Nat) ++ openFrame).length = 20486 := by
    rw [List.length_append, List.length_replicate, hof]
  have h3 : (feedChunks 0 initialState [List.replicate 20480 0, openFrame]).2 = [] := by rw [h]
  refine ⟨?_, h3, by decide⟩
  rw [h1, h2]
  norm_num

theorem getD_take_of_lt (l : List Nat) (n m : Nat) (h : m < n) :
    (l.take n).getD m 0 = l.getD m 0 := by
  rw [List.getD_eq_getElem?_getD, List.getElem?_take, if_pos h, ← List.getD_eq_getElem?_getD]

theorem extractFrame_take_none {F : List Nat} (k : Nat)
    (h0 : F.getD 0 0 = 0xAA) (h1 : F.getD 1 0 = 0x55)
    (hlen : F.length = F.getD 2 0 + 4) (hk : k < F.length) :
    extractFrame (F.take k) = none := by
  by_cases h6 : k < 6
  · exact extractFrame_none_short (by simp [List.length_take]; omega)
  · have hlt : (F.take k).length = k := by simp [List.length_take]; omega
    unfold extractFrame
    rw [if_neg (by omega : ¬(F.take k).length < 6)]
    rw [if_neg (not_not_intro
      ⟨by rw [getD_take_of_lt F k 0 (by omega)]; exact h0,
       by rw [getD_take_of_lt F k 1 (by omega)]; exact h1⟩)]
    rw [if_pos]
    rw [getD_take_of_lt F k 2 (by omega), hlt]
    omega

theorem setBuffer_eta {st : ServiceState} {x : List Nat} (h : st.responseBuffer = x) :
    ({ st with responseBuffer := x } : ServiceState) = st := by
  cases st
  simp_all

theorem applyFrame_setBuffer (now : Nat) (st : ServiceState) (x F : List Nat) :
    applyFrame now { st with responseBuffer := x } F =
      { applyFrame now st F with responseBuffer := x } := by
  unfold applyFrame updateCabinetStatus
  repeat' split
  all_goals rfl

theorem parseResponse_exact (now : Nat) (st : ServiceState) {F : List Nat}
    (h0 : F.getD 0 0 = 0xAA) (h1 : F.getD 1 0 = 0x55)
    (hlen : F.length = F.getD 2 0 + 4) (h6 : 6 ≤ F.length)
    (hv : validateFrameCRC F = true) :
    parseResponse now st F = ({ applyFrame now st F with responseBuffer := [] }, [(F, true)]) := by
  have hE := extractFrame_append [] h0 h1 hlen h6
  rw [List.append_nil, hv] at hE
  unfold parseResponse
  obtain ⟨k, hk⟩ : ∃ k, F.length = k + 1 := ⟨F.length - 1, by omega⟩
  rw [hk]
  simp only [parseLoopFuel]
  rw [if_neg (by omega : ¬F.length = 0)]
  simp only [hE]
  rw [parseLoopFuel_nil]
  simp

theorem feedChunks_all_empty (now : Nat) : ∀ (chunks : List (List Nat)) (st : ServiceState),
    chunks.flatten = [] → st.responseBuffer = [] → feedChunks now st chunks = (st, []) := by
  intro chunks
  induction chunks with
  | nil => intro st hfl hrb; rfl
  | cons c rest ih =>
    intro st hfl hrb
    rw [List.flatten_cons] at hfl
    have hc : c = [] := (List.append_eq_nil.mp hfl).1
    have hr : rest.flatten = [] := (List.append_eq_nil.mp hfl).2
    subst hc
    have hstep : onBytesReceived now st [] = (st, []) := by
      unfold onBytesReceived
      rw [List.append_nil, hrb]
      rw [parseResponse_of_extract_none _ _ (extractFrame_none_short (by simp))]
      rw [setBuffer_eta hrb]
    simp only [feedChunks, hstep]
    rw [ih st hr hrb]
    rfl

theorem feedCompletes (now : Nat) {F : List Nat}
    (h0 : F.getD 0 0 = 0xAA) (h1 : F.getD 1 0 = 0x55)
    (hlen : F.length = F.getD 2 0 + 4) (h6 : 6 ≤ F.length)
    (hv : validateFrameCRC F = true) :
    ∀ (chunks : List (List Nat)) (st : ServiceState),
      st.responseBuffer.length < F.length →
      st.responseBuffer ++ chunks.flatten = F →
      feedChunks now st chunks =
        ({ applyFrame now st F with responseBuffer := [] }, [(F, true)]) := by
  intro chunks
  induction chunks with
  | nil =>
    intro st hlt hP
    rw [List.flatten_nil, List.append_nil] at hP
    rw [hP] at hlt
    omega
  | cons c rest ih =>
    intro st hlt hP
    rw [List.flatten_cons, ← List.append_assoc] at hP
    have hBle : (st.responseBuffer ++ c).length ≤ F.length := by
      rw [← hP]
      simp
    by_cases hcase : (st.responseBuffer ++ c).length = F.length
    · have hfl_nil : rest.flatten = [] := by
        have hlenEq := congrArg List.length hP
        rw [List.length_append] at hlenEq
        rw [← List.length_eq_zero]
        omega
      have hBF : st.responseBuffer ++ c = F := by
        rw [hfl_nil, List.append_nil] at hP
        exact hP
      have hstep : onBytesReceived now st c =
          ({ applyFrame now st F with responseBuffer := [] }, [(F, true)]) := by
        unfold onBytesReceived
        rw [hBF]
        rw [parseResponse_exact now _ h0 h1 hlen h6 hv]
        rw [applyFrame_setBuffer]
      simp only [feedChunks, hstep]
      rw [feedChunks_all_empty now rest _ hfl_nil rfl]
      rfl
    · have hBlt : (st.responseBuffer ++ c).length < F.length := by omega
      have hBtake : st.responseBuffer ++ c = F.take (st.responseBuffer ++ c).length := by
        conv_rhs => rw [← hP]
        rw [List.take_left]
      have hE : extractFrame (st.responseBuffer ++ c) = none := by
        rw [hBtake]
        exact extractFrame_take_none _ h0 h1 hlen hBlt
      have hstep : onBytesReceived now st c =
          ({ st with responseBuffer := st.responseBuffer ++ c }, []) := by
        unfold onBytesReceived
        rw [parseResponse_of_extract_none _ _ hE]
      simp only [feedChunks, hstep]
      have hrec := ih { st with responseBuffer := st.responseBuffer ++ c } hBlt hP
      rw [applyFrame_setBuffer] at hrec
      rw [hrec]
      rfl

/-- C4: a complete valid frame `F` split into chunks at arbitrary
points and delivered through successive `data` events produces exactly
one emitted frame, `(F, true)`, and the engine ends in exactly the
state produced by delivering `F` in a single event. -/
theorem chunkedReassembly (now : Nat) (st : ServiceState) (F : List Nat)
    (chunks : List (List Nat)) (hrb : st.responseBuffer = [])
    (h0 : F.getD 0 0 = 0xAA) (h1 : F.getD 1 0 = 0x55)
    (hlen : F.length = F.getD 2 0 + 4) (h6 : 6 ≤ F.length)
    (hv : validateFrameCRC F = true) (hfl : chunks.flatten = F) :
    feedChunks now st chunks = feedChunks now st [F]
    ∧ (feedChunks now st chunks).2 = [(F, true)] := by
  have hs := feedCompletes now h0 h1 hlen h6 hv chunks st
    (by rw [hrb]; simp; omega) (by rw [hrb, List.nil_append]; exact hfl)
  have hone := feedCompletes now h0 h1 hlen h6 hv [F] st
    (by rw [hrb]; simp; omega) (by rw [hrb, List.nil_append]; simp)
  refine ⟨hs.trans hone.symm, by rw [hs]⟩

theorem chunkedReassembly_witness :
    (feedChunks 0 initialState [openFrame.take 3, openFrame.drop 3]).2 = [(openFrame, true)]
    ∧ feedChunks 0 initialState [openFrame.take 3, openFrame.drop 3] =
        feedChunks 0 initialState [openFrame] := by
  have h := chunkedReassembly 0 initialState openFrame [openFrame.take 3, openFrame.drop 3]
    rfl (by decide) (by decide) (by decide) (by decide) (by decide)
    (by simp [List.take_append_drop])
  exact ⟨h.2, h.1⟩

theorem statusBytes_of_long {frame : List Nat} (h : 12 ≤ frame.length) :
    statusBytesLoop frame =
      [frame.getD 5 0, frame.getD 6 0, frame.getD 7 0,
       frame.getD 8 0, frame.getD 9 0, frame.getD 10 0] := by
  have c5 : (5 : Nat) < 5 + 6 ∧ (5 : Nat) < frame.length - 1 := ⟨by norm_num, by omega⟩
  have c6 : (6 : Nat) < 5 + 6 ∧ (6 : Nat) < frame.length - 1 := ⟨by norm_num, by omega⟩
  have c7 : (7 : Nat) < 5 + 6 ∧ (7 : Nat) < frame.length - 1 := ⟨by norm_num, by omega⟩
  have c8 : (8 : Nat) < 5 + 6 ∧ (8 : Nat) < frame.length - 1 := ⟨by norm_num, by omega⟩
  have c9 : (9 : Nat) < 5 + 6 ∧ (9 : Nat) < frame.length - 1 := ⟨by norm_num, by omega⟩
  have c10 : (10 : Nat) < 5 + 6 ∧ (10 : Nat) < frame.length - 1 := ⟨by norm_num, by omega⟩
  have g10 : statusBytesGo frame 1 10 = frame.getD 10 0 :: statusBytesGo frame 0 11 := by
    show (if (10 : Nat) < 5 + 6 ∧ (10 : Nat) < frame.length - 1 then
        frame.getD 10 0 :: statusBytesGo frame 0 11 else []) =
      frame.getD 10 0 :: statusBytesGo frame 0 11
    rw [if_pos c10]
  have g9 : statusBytesGo frame 2 9 = frame.getD 9 0 :: statusBytesGo frame 1 10 := by
    show (if (9 : Nat) < 5 + 6 ∧ (9 : Nat) < frame.length - 1 then
        frame.getD 9 0 :: statusBytesGo frame 1 10 else []) =
      frame.getD 9 0 :: statusBytesGo frame 1 10
    rw [if_pos c9]
  have g8 : statusBytesGo frame 3 8 = frame.getD 8 0 :: statusBytesGo frame 2 9 := by
    show (if (8 : Nat) < 5 + 6 ∧ (8 : Nat) < frame.length - 1 then
        frame.getD 8 0 :: statusBytesGo frame 2 9 else []) =
      frame.getD 8 0 :: statusBytesGo frame 2 9
    rw [if_pos c8]
  have g7 : statusBytesGo frame 4 7 = frame.getD 7 0 :: statusBytesGo frame 3 8 := by
    show (if (7 : Nat) < 5 + 6 ∧ (7 : Nat) < frame.length - 1 then
        frame.getD 7 0 :: statusBytesGo frame 3 8 else []) =
      frame.getD 7 0 :: statusBytesGo frame 3 8
    rw [if_pos c7]
  have g6 : statusBytesGo frame 5 6 = frame.getD 6 0 :: statusBytesGo frame 4 7 := by
    show (if (6 : Nat) < 5 + 6 ∧ (6 : Nat) < frame.length - 1 then
        frame.getD 6 0 :: statusBytesGo frame 4 7 else []) =
      frame.getD 6 0 :: statusBytesGo frame 4 7
    rw [if_pos c6]
  have g5 : statusBytesGo frame 6 5 = frame.getD 5 0 :: statusBytesGo frame 5 6 := by
    show (if (5 : Nat) < 5 + 6 ∧ (5 : Nat) < frame.length - 1 then
        frame.getD 5 0 :: statusBytesGo frame 5 6 else []) =
      frame.getD 5 0 :: statusBytesGo frame 5 6
    rw [if_pos c5]
  have g11 : statusBytesGo frame 0 11 = [] := rfl
  unfold statusBytesLoop
  rw [g5, g6, g7, g8, g9, g10, g11]

/-- C5: on a well-formed frame (`length = frame[2] + 4`) the status
decoder returns `null` when the declared length is below 8 (never a
partially populated map), and otherwise exactly 48 entries with ids
0..47, where the entry for `cabinetId = byteIndex*8 + bitIndex` reads
bit `bitIndex` (LSB first) of status byte `frame[5 + byteIndex]`:
1 → available, 0 → unavailable. -/
theorem statusDecode (now : Nat) (frame : List Nat)
    (hwf : frame.length = frame.getD 2 0 + 4) :
    (frame.getD 2 0 < 8 → parseStatusResponse now frame = none)
    ∧ (8 ≤ frame.getD 2 0 →
        ∃ ps, parseStatusResponse now frame = some ps
          ∧ ps.cabinets.length = 48
          ∧ ps.totalCabinets = 48
          ∧ ∀ b i : Nat, b < 6 → i < 8 →
              ps.cabinets.getD (b * 8 + i) dummyEntry =
                (b * 8 + i,
                  ⟨b * 8 + i,
                    if (frame.getD (5 + b) 0 >>> i) &&& 1 = 1 then "available" else "unavailable",
                    some b, some i, some ((frame.getD (5 + b) 0 >>> i) &&& 1), now⟩)) := by
  constructor
  · intro h8
    unfold parseStatusResponse
    rw [if_pos (by omega)]
  · intro h8
    have hsb := statusBytes_of_long (by omega : 12 ≤ frame.length)
    unfold parseStatusResponse
    rw [if_neg (by omega), if_neg (by omega)]
    rw [hsb]
    refine ⟨_, rfl, rfl, rfl, ?_⟩
    intro b i hb hi
    interval_cases b <;> interval_cases i <;> rfl

theorem statusDecode_witness :
    parseStatusResponse 0 openFrame = none
    ∧ (parseStatusResponse 0 statusFrameZero).isSome = true
    ∧ Option.map (fun ps => ps.cabinets.length) (parseStatusResponse 0 statusFrameZero) = some 48
    ∧ Option.map (fun ps => (ps.cabinets.getD 0 dummyEntry).2.status)
        (parseStatusResponse 0 statusFrameZero) = some "unavailable" := by
  have h1 := (statusDecode 0 openFrame (by decide)).1 (by decide)
  obtain ⟨ps, hps, hlen, -, hbits⟩ := (statusDecode 0 statusFrameZero (by decide)).2 (by decide)
  have h00 := hbits 0 0 (by norm_num) (by norm_num)
  refine ⟨h1, by rw [hps]; rfl, by rw [hps]; simp [hlen], ?_⟩
  rw [hps]
  show some ((ps.cabinets.getD (0 * 8 + 0) dummyEntry).2.status) = some "unavailable"
  rw [h00]
  decide

theorem openLoop_spec (now : Nat) (writeErr : Nat → Option String) :
    ∀ (ids : List JSNum) (k : Nat) (st : ServiceState),
      (openLoop now writeErr k st ids).2.2.1 =
        ((List.range' k ids.length 1).zip ids).filterMap (fun p =>
          match sendOutcome st.isConnected writeErr p.1 with
          | none => some ⟨jsNumToNat p.2, "opened", now⟩
          | some _ => none)
      ∧ (openLoop now writeErr k st ids).2.2.2 =
        ((List.range' k ids.length 1).zip ids).filterMap (fun p =>
          match sendOutcome st.isConnected writeErr p.1 with
          | none => none
          | some e => some ⟨jsNumToNat p.2, e⟩) := by
  intro ids
  induction ids with
  | nil =>
    intro k st
    constructor <;> rfl
  | cons v rest ih =>
    intro k st
    rw [List.length_cons, List.range'_succ, List.zip_cons_cons,
      List.filterMap_cons, List.filterMap_cons]
    cases hconn : st.isConnected with
    | false =>
      have hsf : sendFrame (writeErr k) st (buildSerialFrame [jsNumToNat v] 0 0x51) =
          (.error "Serial port not connected", []) := by
        unfold sendFrame
        rw [if_pos hconn]
      have hso : sendOutcome false writeErr k = some "Serial port not connected" := rfl
      have hrec := ih (k + 1) st
      simp only [openLoop, hsf, hso, hconn] at hrec ⊢
      exact ⟨hrec.1, by rw [hrec.2]⟩
    | true =>
      cases hw : writeErr k with
      | none =>
        have hsf : sendFrame (writeErr k) st (buildSerialFrame [jsNumToNat v] 0 0x51) =
            (.ok (), [buildSerialFrame [jsNumToNat v] 0 0x51]) := by
          unfold sendFrame
          rw [if_neg (by rw [hconn]; exact Bool.true_eq_false ▸ (by simp)), hw]
        have hso : sendOutcome true writeErr k = none := by
          unfold sendOutcome
          rw [if_pos rfl, hw]
        have hrec := ih (k + 1)
          { st with cabinetStatus := objSet st.cabinetStatus (jsNumToNat v) ⟨jsNumToNat v, "opened", none, none, none, now⟩ }
        simp only [openLoop, hsf, hso, hconn] at hrec ⊢
        exact ⟨by rw [hrec.1], by rw [hrec.2]⟩
      | some e =>
        have hsf : sendFrame (writeErr k) st (buildSerialFrame [jsNumToNat v] 0 0x51) =
            (.error e, [buildSerialFrame [jsNumToNat v] 0 0x51]) := by
          unfold sendFrame
          rw [if_neg (by rw [hconn]; exact Bool.true_eq_false ▸ (by simp)), hw]
        have hso : sendOutcome true writeErr k = some e := by
          unfold sendOutcome
          rw [if_pos rfl, hw]
        have hrec := ih (k + 1) st
        simp only [openLoop, hsf, hso, hconn] at hrec ⊢
        exact ⟨hrec.1, by rw [hrec.2]⟩

/-- C6: `openCabinets` throws a structural error with zero frames
written and the state untouched whenever the input is not an array, is
empty, or contains a non-integer or out-of-range value; on a
structurally valid input it never throws: every id is attempted in
order, an id whose send succeeds lands in `opened` and an id whose send
fails lands in `failed` with the transport's error detail, the batch
continuing either way. -/
theorem openCabinetsContract (now : Nat) (writeErr : Nat → Option String)
    (st : ServiceState) (input : Option (List JSNum)) :
    (structuralBad input = true →
      (openCabinets now writeErr input st).2 = (st, [])
      ∧ ∃ msg, (openCabinets now writeErr input st).1 = .error msg)
    ∧ (∀ ids, input = some ids → structuralBad input = false →
        (openCabinets now writeErr input st).1 =
          .ok (((List.range' 0 ids.length 1).zip ids).filterMap (fun p =>
                  match sendOutcome st.isConnected writeErr p.1 with
                  | none => some ⟨jsNumToNat p.2, "opened", now⟩
                  | some _ => none),
               ((List.range' 0 ids.length 1).zip ids).filterMap (fun p =>
                  match sendOutcome st.isConnected writeErr p.1 with
                  | none => none
                  | some e => some ⟨jsNumToNat p.2, e⟩))) := by
  constructor
  · intro hbad
    cases input with
    | none => exact ⟨rfl, _, rfl⟩
    | some ids =>
      simp only [structuralBad] at hbad
      by_cases hemp : ids.isEmpty
      · simp only [openCabinets]
        rw [if_pos hemp]
        exact ⟨rfl, _, rfl⟩
      · have hany : ids.any (fun v => !jsNumOk v) = true := by
          rw [Bool.or_eq_true] at hbad
          tauto
        have hfind : (ids.find? (fun v => !jsNumOk v)).isSome = true := by
          rw [List.find?_isSome]
          exact List.any_eq_true.mp hany
        obtain ⟨bad, hbad'⟩ := Option.isSome_iff_exists.mp hfind
        simp only [openCabinets]
        rw [if_neg hemp, hbad']
        exact ⟨rfl, _, rfl⟩
  · intro ids hin hgood
    subst hin
    simp only [structuralBad] at hgood
    rw [Bool.or_eq_false_iff] at hgood
    have hfind : ids.find? (fun v => !jsNumOk v) = none := by
      rw [List.find?_eq_none]
      intro x hx
      have hall := List.any_eq_false.mp hgood.2
      simpa using hall x hx
    simp only [openCabinets]
    rw [if_neg (by simp [hgood.1]), hfind]
    have hspec := openLoop_spec now writeErr ids 0 st
    show Except.ok ((openLoop now writeErr 0 st ids).2.2.1, (openLoop now writeErr 0 st ids).2.2.2) = _
    rw [hspec.1, hspec.2]

theorem openCabinetsContract_witness :
    (openCabinets 0 (fun _ => none) (some [JSNum.int 256]) initialState).2 = (initialState, [])
    ∧ (∃ msg, (openCabinets 0 (fun _ => none) (some [JSNum.int 256]) initialState).1 = .error msg)
    ∧ (openCabinets 0 (fun _ => none) (some [JSNum.int 3]) initialState).1 =
        .ok ([], [⟨3, "Serial port not connected"⟩]) := by
  have hbad := (openCabinetsContract 0 (fun _ => none) initialState (some [JSNum.int 256])).1
    (by decide)
  have hok := (openCabinetsContract 0 (fun _ => none) initialState (some [JSNum.int 3])).2
    [JSNum.int 3] rfl (by decide)
  refine ⟨hbad.1, hbad.2, ?_⟩
  rw [hok]
  rfl
